import Mathlib

/-
  Verification development for the goldmark-chart repository (main.go).

  The Go source is shallowly embedded: each Go function used by the claims
  (ParseChartData, BuildChartJS, HTMLRenderer.Render, Transformer.Transform)
  becomes an executable Lean definition over String / List Char, and the Go
  standard-library routines they call (strings.*, encoding/json, fmt.Sscanf,
  strconv-style quoting) are modelled faithfully for the inputs in scope.
  Go float64 values are modelled as exact rationals; every verified input
  uses small integral values, where the two agree.
-/

namespace GoldmarkChart

/- ## Models of Go `strings` package primitives used by main.go (ASCII-faithful;
the two Latin-1 white-space code points Go also trims are included). -/

def vtab : Char := Char.ofNat 11

def ffeed : Char := Char.ofNat 12

def nelChar : Char := Char.ofNat 133

def nbspChar : Char := Char.ofNat 160

def squote : Char := Char.ofNat 39

def isGoSpace (c : Char) : Bool :=
  c = ' ' || c = '\t' || c = '\n' || c = vtab || c = ffeed || c = '\r' ||
    c = nelChar || c = nbspChar

/-- Model of Go strings.TrimSpace. -/
def goTrimSpace (s : String) : String :=
  ⟨((s.data.dropWhile isGoSpace).reverse.dropWhile isGoSpace).reverse⟩

/-- Split a character list at every newline, as Go strings.Split (s, newline). -/
def splitNlL : List Char → List (List Char)
  | [] => [[]]
  | c :: rest =>
    if c = '\n' then [] :: splitNlL rest
    else
      match splitNlL rest with
      | [] => [[c]]
      | h :: t => (c :: h) :: t

def goSplitLines (s : String) : List String := (splitNlL s.data).map String.mk

/-- Model of Go strings.HasPrefix. -/
def goStartsWith (s pre : String) : Bool := pre.data.isPrefixOf s.data

/-- Model of Go strings.TrimPrefix. -/
def goDropPre (s pre : String) : String :=
  if goStartsWith s pre then ⟨s.data.drop pre.data.length⟩ else s

/-- Model of Go strings.HasSuffix. -/
def goEndsWith (s suf : String) : Bool := suf.data.isSuffixOf s.data

/-- Model of Go strings.TrimSuffix. -/
def goTrimSuf (s suf : String) : String :=
  if goEndsWith s suf then ⟨s.data.take (s.data.length - suf.data.length)⟩ else s

/-- Model of Go strings.Join with separator newline. -/
def goJoinNl (ls : List String) : String := String.intercalate "\n" ls

/-- Model of Go strings.ToLower, for the ASCII letters that occur here. -/
def lowerChar (c : Char) : Char :=
  if 'A' ≤ c && c ≤ 'Z' then Char.ofNat (c.toNat + 32) else c

def goToLower (s : String) : String := ⟨s.data.map lowerChar⟩

/-- One left-to-right non-overlapping replacement pass, fuelled by the input
length (each step consumes at least one character, so the fuel suffices). -/
def replaceAllL (pat rep : List Char) : Nat → List Char → List Char
  | _, [] => []
  | 0, s => s
  | fuel + 1, c :: rest =>
    if pat.isPrefixOf (c :: rest) then
      rep ++ replaceAllL pat rep fuel ((c :: rest).drop pat.length)
    else
      c :: replaceAllL pat rep fuel rest

/-- Model of Go strings.ReplaceAll for a non-empty pattern (every pattern in
main.go is non-empty; Go inserts between characters for an empty one). -/
def goReplaceAll (s pat rep : String) : String :=
  if pat.data = [] then s else ⟨replaceAllL pat.data rep.data s.data.length s.data⟩

/-- Model of Go strings.Contains restricted to character lists. -/
def containsSubstrL (pat : List Char) : List Char → Bool
  | [] => pat.isPrefixOf []
  | c :: rest => pat.isPrefixOf (c :: rest) || containsSubstrL pat rest

def containsSubstr (s pat : String) : Bool := containsSubstrL pat.data s.data

/-- Number of (possibly overlapping) occurrences of a pattern in a string. -/
def countSubstrL (pat : List Char) : List Char → Nat
  | [] => 0
  | c :: rest => (if pat.isPrefixOf (c :: rest) then 1 else 0) + countSubstrL pat rest

def countSubstr (s pat : String) : Nat := countSubstrL pat.data s.data

/- ## Model of encoding/json values and of json.Unmarshal into []RenderPoint.
JSON numbers are represented exactly as an integer numerator over a
power-of-ten denominator, as produced by the number grammar (Go stores a
float64; the two agree on the small decimal values appearing in the verified
inputs, and no theorem relies on float64 rounding). Arrays and objects use
mutually inductive list types so that all recursions stay structural. -/

structure JNum where
  num : Int
  den : Nat
  deriving DecidableEq

mutual

inductive Jval where
  | jnull : Jval
  | jbool : Bool → Jval
  | jnum : JNum → Jval
  | jstr : String → Jval
  | jarr : JvalL → Jval
  | jobj : JmemL → Jval

inductive JvalL where
  | nil : JvalL
  | cons : Jval → JvalL → JvalL

inductive JmemL where
  | nil : JmemL
  | cons : String → Jval → JmemL → JmemL

end

deriving instance DecidableEq for Jval, JvalL, JmemL

def jskipWs : List Char → List Char
  | [] => []
  | c :: cs =>
    if c = ' ' || c = '\t' || c = '\n' || c = '\r' then jskipWs cs else c :: cs

def isHexDigit (c : Char) : Bool :=
  c.isDigit || ('a' ≤ c && c ≤ 'f') || ('A' ≤ c && c ≤ 'F')

def hexVal (c : Char) : Nat :=
  if c.isDigit then c.toNat - 48
  else if 'a' ≤ c && c ≤ 'f' then c.toNat - 87
  else c.toNat - 55

/-- JSON string body after the opening quote: accumulate characters up to the
closing quote, handling the escape sequences the Go decoder accepts and
rejecting raw control characters. -/
def parseJStrL (acc : List Char) : Nat → List Char → Except String (String × List Char)
  | _, [] => .error "unexpected end of JSON input"
  | 0, _ => .error "unexpected end of JSON input"
  | fuel + 1, c :: cs =>
    if c = '"' then .ok (⟨acc.reverse⟩, cs)
    else if c = '\\' then
      match cs with
      | [] => .error "unexpected end of JSON input"
      | e :: cs2 =>
        if e = '"' || e = '\\' || e = '/' then parseJStrL (e :: acc) fuel cs2
        else if e = 'b' then parseJStrL (Char.ofNat 8 :: acc) fuel cs2
        else if e = 'f' then parseJStrL (ffeed :: acc) fuel cs2
        else if e = 'n' then parseJStrL ('\n' :: acc) fuel cs2
        else if e = 'r' then parseJStrL ('\r' :: acc) fuel cs2
        else if e = 't' then parseJStrL ('\t' :: acc) fuel cs2
        else if e = 'u' then
          match cs2 with
          | h1 :: h2 :: h3 :: h4 :: cs3 =>
            if isHexDigit h1 && isHexDigit h2 && isHexDigit h3 && isHexDigit h4 then
              parseJStrL
                (Char.ofNat (((hexVal h1 * 16 + hexVal h2) * 16 + hexVal h3) * 16 + hexVal h4)
                  :: acc) fuel cs3
            else .error "invalid character in string escape code"
          | _ => .error "unexpected end of JSON input"
        else .error "invalid character in string escape code"
    else if c.toNat < 32 then .error "invalid character in string literal"
    else parseJStrL (c :: acc) fuel cs

def digitsToNat (ds : List Char) : Nat :=
  ds.foldl (fun a c => a * 10 + (c.toNat - 48)) 0

/-- JSON number grammar (as enforced by the Go scanner), evaluated exactly. -/
def parseJNum (cs0 : List Char) : Except String (JNum × List Char) :=
  let (neg, cs1) :=
    match cs0 with
    | c :: r => if c = '-' then (true, r) else (false, cs0)
    | [] => (false, cs0)
  match cs1 with
  | [] => .error "unexpected end of JSON input"
  | d :: _ =>
    if !d.isDigit then .error "invalid character in numeric literal"
    else
      let (ip, cs2) :=
        if d = '0' then ([d], cs1.drop 1)
        else (cs1.takeWhile Char.isDigit, cs1.dropWhile Char.isDigit)
      match cs2 with
      | c2 :: _ =>
        if d = '0' && c2.isDigit then .error "invalid character after top-level zero"
        else
          let (fp, cs3) :=
            if c2 = '.' then ((cs2.drop 1).takeWhile Char.isDigit, (cs2.drop 1).dropWhile Char.isDigit)
            else ([], cs2)
          if c2 = '.' && fp = [] then .error "invalid character in numeric literal"
          else
            let (hasExp, eneg, ed, cs4) :=
              match cs3 with
              | e :: rest =>
                if e = 'e' || e = 'E' then
                  match rest with
                  | s :: rest2 =>
                    if s = '+' then (true, false, rest2.takeWhile Char.isDigit, rest2.dropWhile Char.isDigit)
                    else if s = '-' then (true, true, rest2.takeWhile Char.isDigit, rest2.dropWhile Char.isDigit)
                    else (true, false, rest.takeWhile Char.isDigit, rest.dropWhile Char.isDigit)
                  | [] => (true, false, [], [])
                else (false, false, [], cs3)
              | [] => (false, false, [], cs3)
            if hasExp && ed = [] then .error "invalid character in exponent of numeric literal"
            else
              let mantN : Nat := digitsToNat (ip ++ fp)
              let scaled : JNum :=
                if hasExp then
                  if eneg then
                    { num := (mantN : Int), den := 10 ^ fp.length * 10 ^ digitsToNat ed }
                  else
                    { num := (mantN : Int) * (10 ^ digitsToNat ed : Nat), den := 10 ^ fp.length }
                else { num := (mantN : Int), den := 10 ^ fp.length }
              .ok (if neg then { scaled with num := -scaled.num } else scaled, cs4)
      | [] =>
        let mant : JNum := { num := (digitsToNat ip : Int), den := 1 }
        .ok (if neg then { mant with num := -mant.num } else mant, [])

def expectLit (lit : List Char) (v : Jval) (cs : List Char) : Except String (Jval × List Char) :=
  if lit.isPrefixOf cs then .ok (v, cs.drop lit.length)
  else .error "invalid character in literal"

def jrevApp : JvalL → JvalL → JvalL
  | .nil, acc => acc
  | .cons v t, acc => jrevApp t (.cons v acc)

def jmrevApp : JmemL → JmemL → JmemL
  | .nil, acc => acc
  | .cons n v t, acc => jmrevApp t (.cons n v acc)

mutual

def parseJVal : Nat → List Char → Except String (Jval × List Char)
  | 0, _ => .error "unexpected end of JSON input"
  | fuel + 1, cs =>
    match jskipWs cs with
    | [] => .error "unexpected end of JSON input"
    | c :: rest =>
      if c = '"' then
        match parseJStrL [] (rest.length + 1) rest with
        | .error e => .error e
        | .ok (s, r) => .ok (.jstr s, r)
      else if c = '\x7b' then parseJObj fuel .nil rest
      else if c = '[' then parseJArr fuel .nil rest
      else if c = 't' then expectLit ['r', 'u', 'e'] (.jbool true) rest
      else if c = 'f' then expectLit ['a', 'l', 's', 'e'] (.jbool false) rest
      else if c = 'n' then expectLit ['u', 'l', 'l'] .jnull rest
      else if c = '-' || c.isDigit then
        match parseJNum (c :: rest) with
        | .error e => .error e
        | .ok (q, r) => .ok (.jnum q, r)
      else .error "invalid character looking for beginning of value"

def parseJArr (fuel : Nat) (acc : JvalL) (cs : List Char) : Except String (Jval × List Char) :=
  match fuel with
  | 0 => .error "unexpected end of JSON input"
  | fuel + 1 =>
    match jskipWs cs with
    | [] => .error "unexpected end of JSON input"
    | c :: rest =>
      if c = ']' && (match acc with | .nil => true | _ => false) then
        .ok (.jarr .nil, rest)
      else
        match parseJVal fuel (c :: rest) with
        | .error e => .error e
        | .ok (v, r) =>
          match jskipWs r with
          | [] => .error "unexpected end of JSON input"
          | c2 :: r2 =>
            if c2 = ',' then parseJArr fuel (.cons v acc) r2
            else if c2 = ']' then .ok (.jarr (jrevApp acc (.cons v .nil)), r2)
            else .error "invalid character after array element"

def parseJObj (fuel : Nat) (acc : JmemL) (cs : List Char) : Except String (Jval × List Char) :=
  match fuel with
  | 0 => .error "unexpected end of JSON input"
  | fuel + 1 =>
    match jskipWs cs with
    | [] => .error "unexpected end of JSON input"
    | c :: rest =>
      if c = '\x7d' && (match acc with | .nil => true | _ => false) then
        .ok (.jobj .nil, rest)
      else if c = '"' then
        match parseJStrL [] (rest.length + 1) rest with
        | .error e => .error e
        | .ok (name, r) =>
          match jskipWs r with
          | [] => .error "unexpected end of JSON input"
          | c2 :: r2 =>
            if c2 = ':' then
              match parseJVal fuel r2 with
              | .error e => .error e
              | .ok (v, r3) =>
                match jskipWs r3 with
                | [] => .error "unexpected end of JSON input"
                | c3 :: r4 =>
                  if c3 = ',' then parseJObj fuel (.cons name v acc) r4
                  else if c3 = '\x7d' then .ok (.jobj (jmrevApp acc (.cons name v .nil)), r4)
                  else .error "invalid character after object key value pair"
            else .error "invalid character after object key"
      else .error "invalid character looking for beginning of object key string"

end

/- ## Decoding into []RenderPoint (model of json.Unmarshal with target
[]RenderPoint). The struct tag on Key is json:"key,string"; the string option
is ignored by Go for interface-typed fields, so the field names are matched as
"key" and "Value" with ASCII case folding as in the decoder. Key holds any JSON
value (Go interface value, zero value nil = jnull); Value requires a number
(JSON null leaves the zero value in place). -/

structure RenderPoint where
  Key : Jval
  Value : JNum
  deriving DecidableEq

structure RenderChartData where
  -- Go field name is Type; Type is a Lean keyword, hence Typ here
  Typ : String
  Height : String
  Label : String
  Title : String
  Points : List RenderPoint
  KeysNumeric : Bool
  Color : String
  deriving DecidableEq

deriving instance DecidableEq for Except

def defaultPoint : RenderPoint := { Key := .jnull, Value := { num := 0, den := 1 } }

def foldName (s : String) : String := goToLower s

def decodeMems (p : RenderPoint) : JmemL → Except String RenderPoint
  | .nil => .ok p
  | .cons name v rest =>
    if foldName name = "key" then decodeMems { p with Key := v } rest
    else if foldName name = "value" then
      match v with
      | .jnum q => decodeMems { p with Value := q } rest
      | .jnull => decodeMems p rest
      | _ => .error "cannot unmarshal value into Go struct field RenderPoint.value of type float64"
    else decodeMems p rest

def decodePoint : Jval → Except String RenderPoint
  | .jobj ms => decodeMems defaultPoint ms
  | .jnull => .ok defaultPoint
  | _ => .error "cannot unmarshal value into Go value of type goldmark_chart.RenderPoint"

def decodePointList : JvalL → Except String (List RenderPoint)
  | .nil => .ok []
  | .cons v rest =>
    match decodePoint v with
    | .error e => .error e
    | .ok p =>
      match decodePointList rest with
      | .error e => .error e
      | .ok ps => .ok (p :: ps)

/-- Model of json.Unmarshal(data, &points) for points : []RenderPoint. -/
def unmarshalPoints (s : String) : Except String (List RenderPoint) :=
  let cs := s.data
  match parseJVal (2 * cs.length + 2) cs with
  | .error e => .error e
  | .ok (v, rest) =>
    if jskipWs rest ≠ [] then .error "invalid character after top-level value"
    else
      match v with
      | .jarr xs => decodePointList xs
      | .jnull => .ok []
      | _ => .error "cannot unmarshal value into Go value of type []goldmark_chart.RenderPoint"

/- ## Model of fmt.Sscanf(key, percent-v, new(float64)) succeeding.
The fmt scanner skips leading spaces (a newline is an error since Sscanf does
not treat newlines as space), requires the input to be non-empty, greedily
reads a float-shaped token (this does NOT require the token to reach the end
of the string: trailing characters are simply left unread), and converts the
token with the fmt convertFloat, whose lowercase-p branch evaluates a
decimal-mantissa binary exponent itself and otherwise defers to
strconv.ParseFloat. -/

def skipSpaceStrict : List Char → Option (List Char)
  | [] => some []
  | c :: cs =>
    if c = '\n' then none
    else if isGoSpace c then skipSpaceStrict cs
    else some (c :: cs)

structure FtState where
  tok : List Char
  rest : List Char

/-- The fmt scanner accept step: consume the next character when it belongs to the set. -/
def ftAccept (ok : Char → Bool) (st : FtState) : Bool × FtState :=
  match st.rest with
  | [] => (false, st)
  | c :: cs => if ok c then (true, { tok := st.tok ++ [c], rest := cs }) else (false, st)

def isNn (c : Char) : Bool := c = 'n' || c = 'N'

def isAa (c : Char) : Bool := c = 'a' || c = 'A'

def isIi (c : Char) : Bool := c = 'i' || c = 'I'

def isFf (c : Char) : Bool := c = 'f' || c = 'F'

def isSign (c : Char) : Bool := c = '+' || c = '-'

def isDecDigitU (c : Char) : Bool := c.isDigit || c = '_'

def isHexDigitU (c : Char) : Bool := isHexDigit c || c = '_'

def isExpChar (c : Char) : Bool := c = 'e' || c = 'E' || c = 'p' || c = 'P'

def ftAcceptRun (ok : Char → Bool) (st : FtState) : FtState :=
  { tok := st.tok ++ st.rest.takeWhile ok, rest := st.rest.dropWhile ok }

/-- The mantissa/exponent tail of the fmt floatToken, after the NaN/Inf
special cases have been attempted. -/
def floatTokenTail (st0 : FtState) : FtState :=
  let (saw0, st1) := ftAccept (fun c => c = '0') st0
  let (sawX, st2) := if saw0 then ftAccept (fun c => c = 'x' || c = 'X') st1 else (false, st1)
  let digits := if saw0 && sawX then isHexDigitU else isDecDigitU
  let st3 := ftAcceptRun digits st2
  let (sawDot, st4) := ftAccept (fun c => c = '.') st3
  let st5 := if sawDot then ftAcceptRun digits st4 else st4
  let (sawExp, st6) := ftAccept isExpChar st5
  if sawExp then
    let (_, st7) := ftAccept isSign st6
    ftAcceptRun isDecDigitU st7
  else st6

/-- Model of the fmt floatToken: the greedy float-shaped token at the head of
the input (possibly empty), together with the unread remainder. -/
def floatToken (cs : List Char) : FtState :=
  let st0 : FtState := { tok := [], rest := cs }
  let (n1, stn1) := ftAccept isNn st0
  if n1 then
    let (n2, stn2) := ftAccept isAa stn1
    if n2 then
      let (n3, stn3) := ftAccept isNn stn2
      if n3 then stn3 else floatTokenTail stn3
    else floatTokenTail stn2
  else
    let (_, sts) := ftAccept isSign stn1
    let (i1, sti1) := ftAccept isIi sts
    if i1 then
      let (i2, sti2) := ftAccept isNn sti1
      if i2 then
        let (i3, sti3) := ftAccept isFf sti2
        if i3 then sti3 else floatTokenTail sti3
      else floatTokenTail sti2
    else floatTokenTail sti1

/-- Underscores are legal only directly between digits (simplified form of
the strconv underscore rule, adequate for tokens without a base marker). -/
def underscoresOkAux (prevDigit : Bool) : List Char → Bool
  | [] => true
  | c :: cs =>
    if c = '_' then
      prevDigit && (match cs with
        | d :: _ => d.isDigit
        | [] => false) && underscoresOkAux false cs
    else underscoresOkAux c.isDigit cs

def underscoresOk (cs : List Char) : Bool := underscoresOkAux false cs

def stripUnderscores (cs : List Char) : List Char := cs.filter (fun c => c ≠ '_')

/-- Decimal float syntax accepted by strconv.ParseFloat (after removing legal
underscores): digits with an optional dot somewhere and at least one digit,
optionally followed by an e/E exponent with at least one digit. -/
def decFloatSyntax (cs : List Char) : Bool :=
  let ip := cs.takeWhile Char.isDigit
  let r1 := cs.dropWhile Char.isDigit
  let (fp, r2) :=
    match r1 with
    | c :: rest => if c = '.' then (rest.takeWhile Char.isDigit, rest.dropWhile Char.isDigit) else ([], r1)
    | [] => ([], r1)
  if ip = [] && fp = [] then false
  else
    match r2 with
    | [] => true
    | e :: rest =>
      if e = 'e' || e = 'E' then
        let rest2 :=
          match rest with
          | s :: r => if isSign s then r else rest
          | [] => rest
        rest2 ≠ [] && rest2.all Char.isDigit
      else false

/-- Hexadecimal float syntax accepted by strconv.ParseFloat: 0x, hex digits
with an optional dot and at least one digit, then a mandatory p/P exponent
with at least one decimal digit. -/
def hexFloatSyntax (cs : List Char) : Bool :=
  match cs with
  | z :: x :: body =>
    if z = '0' && (x = 'x' || x = 'X') then
      let ip := body.takeWhile isHexDigit
      let r1 := body.dropWhile isHexDigit
      let (fp, r2) :=
        match r1 with
        | c :: rest => if c = '.' then (rest.takeWhile isHexDigit, rest.dropWhile isHexDigit) else ([], r1)
        | [] => ([], r1)
      if ip = [] && fp = [] then false
      else
        match r2 with
        | p :: rest =>
          (p = 'p' || p = 'P') &&
            (let rest2 :=
              match rest with
              | s :: r => if isSign s then r else rest
              | [] => rest
            rest2 ≠ [] && rest2.all Char.isDigit)
        | [] => false
    else false
  | _ => false

def eqFoldAscii (a b : String) : Bool := goToLower a = goToLower b

/-- Model of strconv.ParseFloat succeeding on a string: an optional sign, the
special words inf, infinity and nan (ASCII case-insensitive), or a decimal
float (optional e/E exponent) or a hexadecimal float (mandatory p/P
exponent), with underscores legal only directly between digits. -/
def parseFloatOk (tok : List Char) : Bool :=
  let body :=
    match tok with
    | c :: rest => if isSign c then rest else tok
    | [] => tok
  if body = [] then false
  else if eqFoldAscii ⟨body⟩ "inf" || eqFoldAscii ⟨body⟩ "infinity" || eqFoldAscii ⟨body⟩ "nan" then
    true
  else if !underscoresOk body then false
  else
    let clean := stripUnderscores body
    decFloatSyntax clean || hexFloatSyntax clean

/-- Model of strconv.Atoi succeeding: an optional sign followed by at least
one decimal digit and nothing else (no underscores, since the base is fixed
to ten). -/
def atoiOk (cs : List Char) : Bool :=
  let body :=
    match cs with
    | c :: rest => if isSign c then rest else cs
    | [] => cs
  !(body = []) && body.all Char.isDigit

/-- Model of the fmt convertFloat succeeding on a float token: when the token
contains a lowercase p the function splits at its first occurrence, feeds the
part before it to strconv.ParseFloat and the part after it to strconv.Atoi,
and combines them with math.Ldexp (which never fails) - so "1p5" scans as 32
while "0x1p3" errors, since ParseFloat("0x1") lacks the exponent a hex float
requires; a token without a lowercase p (including hex floats written with an
uppercase P) goes to strconv.ParseFloat whole. -/
def convertFloatOk (tok : List Char) : Bool :=
  if tok.contains 'p' then
    parseFloatOk (tok.takeWhile (fun c => c ≠ 'p')) &&
      atoiOk ((tok.dropWhile (fun c => c ≠ 'p')).drop 1)
  else parseFloatOk tok

/-- fmt.Sscanf (key, float verb) succeeds: skip spaces (newline is an error),
require a non-empty remainder, read the greedy float token, convert it with
the fmt convertFloat. -/
def sscanfFloatOk (s : String) : Bool :=
  match skipSpaceStrict s.data with
  | none => false
  | some [] => false
  | some cs => convertFloatOk (floatToken cs).tok

/-- The keys-are-numeric loop of ParseChartData (lines 172-181): walk the
points, and for every point whose Key is a string, test it with the Sscanf
model; stop at the first failure. -/
def keysNumericLoop : List RenderPoint → Bool
  | [] => true
  | p :: ps =>
    match p.Key with
    | .jstr s => if sscanfFloatOk s then keysNumericLoop ps else false
    | _ => keysNumericLoop ps

/- ## ParseChartData (main.go lines 104-192). -/

structure ScanState where
  typ : String
  height : String
  label : String
  title : String
  color : String
  dataLines : List String
  inData : Bool
  deriving DecidableEq

def initScan : ScanState :=
  { typ := "", height := "", label := "", title := "", color := "",
    dataLines := [], inData := false }

/-- One iteration of the line loop (lines 116-140): trim the line, dispatch on
the recognized field markers in source order, otherwise accumulate the line
when inside the data section. -/
def scanLine (st : ScanState) (raw : String) : ScanState :=
  let line := goTrimSpace raw
  if goStartsWith line "layout:" then
    { st with typ := goTrimSpace (goDropPre line "layout:") }
  else if goStartsWith line "height:" then
    { st with height := goTrimSpace (goDropPre line "height:") }
  else if goStartsWith line "label:" then
    { st with label := goTrimSpace (goDropPre line "label:") }
  else if goStartsWith line "title:" then
    { st with title := goTrimSpace (goDropPre line "title:") }
  else if goStartsWith line "color:" then
    { st with color := goTrimSpace (goDropPre line "color:") }
  else if goStartsWith line "data:" then
    let st1 := { st with inData := true }
    if line.data.contains '[' then
      { st1 with dataLines := st1.dataLines ++ [⟨line.data.dropWhile (fun c => c ≠ '[')⟩] }
    else st1
  else if st.inData then { st with dataLines := st.dataLines ++ [line] }
  else st

/-- The whole line scan of ParseChartData. -/
def scanAll (input : String) : ScanState :=
  (goSplitLines (goTrimSpace input)).foldl scanLine initScan

def sq : String := String.singleton squote

def dq : String := "\x22"

/-- Normalization of the accumulated data lines into strict JSON text
(lines 149-165): join, trim one trailing bracket, trim space, re-wrap in
brackets, then the five unconditional textual rewrites in source order. -/
def normalizeData (ls : List String) : String :=
  let d0 := goJoinNl ls
  let d1 := goTrimSpace (goTrimSuf d0 "]")
  let d2 := if goStartsWith d1 "[" then d1 else "[" ++ d1
  let d3 := if goEndsWith d2 "]" then d2 else d2 ++ "]"
  let d4 := goReplaceAll d3 "key:" (dq ++ "key" ++ dq ++ ":")
  let d5 := goReplaceAll d4 "value:" (dq ++ "value" ++ dq ++ ":")
  let d6 := goReplaceAll d5 sq dq
  let d7 := goReplaceAll d6 ", \x7d" "\x7d"
  goReplaceAll d7 ",]" "]"

/-- ParseChartData (main.go lines 104-192). -/
def ParseChartData (input : String) : Except String RenderChartData :=
  let st := scanAll input
  if st.typ = "" then .error "layout not found"
  else if st.dataLines = [] then .error "data not found"
  else
    match unmarshalPoints (normalizeData st.dataLines) with
    | .error e => .error ("failed to parse chart data: " ++ e)
    | .ok points =>
      .ok { Typ := st.typ, Height := st.height, Label := st.label, Title := st.title,
            Points := points, KeysNumeric := keysNumericLoop points, Color := st.color }

/- ## Models of the string-quoting routines BuildChartJS relies on. -/

def lowerHexDigit (n : Nat) : Char :=
  if n < 10 then Char.ofNat (48 + n) else Char.ofNat (87 + n)

def hexByte (n : Nat) : List Char := [lowerHexDigit (n / 16 % 16), lowerHexDigit (n % 16)]

/-- Escaping of one character by strconv.Quote (the Go verb percent-q), exact
for ASCII; printable characters above 0x7f are kept literal as in Go. -/
def goQuoteChar (c : Char) : List Char :=
  if c = '"' || c = '\\' then ['\\', c]
  else if 32 ≤ c.toNat && c.toNat ≤ 126 then [c]
  else if c.toNat = 7 then ['\\', 'a']
  else if c.toNat = 8 then ['\\', 'b']
  else if c.toNat = 12 then ['\\', 'f']
  else if c = '\n' then ['\\', 'n']
  else if c = '\r' then ['\\', 'r']
  else if c = '\t' then ['\\', 't']
  else if c.toNat = 11 then ['\\', 'v']
  else if c.toNat < 32 || c.toNat = 127 then '\\' :: 'x' :: hexByte c.toNat
  else [c]

/-- Model of strconv.Quote / fmt percent-q for strings. -/
def goQuote (s : String) : String :=
  ⟨'"' :: s.data.flatMap goQuoteChar ++ ['"']⟩

/-- Escaping of one character by json.Marshal on strings (HTML escaping on, as
in the default encoder of encoding/json). -/
def jsonEscChar (c : Char) : List Char :=
  if c = '"' then ['\\', '"']
  else if c = '\\' then ['\\', '\\']
  else if c = '\n' then ['\\', 'n']
  else if c = '\r' then ['\\', 'r']
  else if c = '\t' then ['\\', 't']
  else if c = '<' then ['\\', 'u', '0', '0', '3', 'c']
  else if c = '>' then ['\\', 'u', '0', '0', '3', 'e']
  else if c = '&' then ['\\', 'u', '0', '0', '2', '6']
  else if c.toNat < 32 then '\\' :: 'u' :: '0' :: '0' :: hexByte c.toNat
  else if c.toNat = 8232 then ['\\', 'u', '2', '0', '2', '8']
  else if c.toNat = 8233 then ['\\', 'u', '2', '0', '2', '9']
  else [c]

/-- Model of json.Marshal applied to a Go string. -/
def jsonMarshalString (s : String) : String :=
  ⟨'"' :: s.data.flatMap jsonEscChar ++ ['"']⟩

def natToDigits (n : Nat) : List Char := (toString n).data

/-- Model of json.Marshal applied to a float64 held as an exact decimal (Go
prints the shortest decimal representation; for the short decimal values in
the verified inputs the two agree; exponent notation does not arise here). -/
def marshalJNum (q : JNum) : String :=
  let sign : List Char := if q.num < 0 then ['-'] else []
  let n : Nat := q.num.natAbs
  let d : Nat := q.den
  if d ≤ 1 then ⟨sign ++ natToDigits n⟩
  else if n % d = 0 then ⟨sign ++ natToDigits (n / d)⟩
  else
    let k := (natToDigits d).length - 1
    let remDigits := natToDigits (n % d)
    let fp := List.replicate (k - remDigits.length) '0' ++ remDigits
    let fpTrimmed := (fp.reverse.dropWhile (fun c => c = '0')).reverse
    ⟨sign ++ natToDigits (n / d) ++ '.' :: fpTrimmed⟩

mutual

/-- Model of json.Marshal on an interface value (object members are emitted in
stored order; Go sorts map keys, but objects never occur in a label list of
the inputs verified here). -/
def marshalJval : Jval → String
  | .jnull => "null"
  | .jbool b => if b then "true" else "false"
  | .jnum q => marshalJNum q
  | .jstr s => jsonMarshalString s
  | .jarr xs => "[" ++ marshalJvalL xs ++ "]"
  | .jobj ms => "\x7b" ++ marshalJmemL ms ++ "\x7d"

def marshalJvalL : JvalL → String
  | .nil => ""
  | .cons v .nil => marshalJval v
  | .cons v rest => marshalJval v ++ "," ++ marshalJvalL rest

def marshalJmemL : JmemL → String
  | .nil => ""
  | .cons n v .nil => jsonMarshalString n ++ ":" ++ marshalJval v
  | .cons n v rest => jsonMarshalString n ++ ":" ++ marshalJval v ++ "," ++ marshalJmemL rest

end

/-- Model of json.Marshal on the labels slice []interface\x7b\x7d. -/
def marshalLabels (ls : List Jval) : String :=
  "[" ++ String.intercalate "," (ls.map marshalJval) ++ "]"

/-- Model of json.Marshal on the values slice []float64. -/
def marshalValues (vs : List JNum) : String :=
  "[" ++ String.intercalate "," (vs.map marshalJNum) ++ "]"

/- ## BuildChartJS (main.go lines 194-289). -/

/-- The kind normalization at the top of BuildChartJS (lines 196-201): lower
case and trim, then coerce anything outside bar/line/pie to bar. -/
def normalizeChartType (s : String) : String :=
  let t := goToLower (goTrimSpace s)
  if t = "bar" ∨ t = "line" ∨ t = "pie" then t else "bar"

/-- BuildChartJS (main.go lines 194-289), with the Sprintf templates
transcribed byte-for-byte (tabs and newlines included). -/
def BuildChartJS (div_id : String) (cd : RenderChartData) : String :=
  let t := normalizeChartType cd.Typ
  let labels := cd.Points.map RenderPoint.Key
  let values := cd.Points.map RenderPoint.Value
  let labelsJSON := marshalLabels labels
  let valuesJSON := marshalValues values
  let uiColor := if goTrimSpace cd.Color = "" then "#dddddd" else cd.Color
  let uiColorJSON := jsonMarshalString uiColor
  let titleText := if goTrimSpace cd.Title = "" then cd.Label else cd.Title
  let titleJSON := jsonMarshalString titleText
  let titleDisplay := if goTrimSpace titleText = "" then "false" else "true"
  let dataset :=
    "\x7b\n\t\tlabel: " ++ goQuote cd.Label ++ ",\n\t\tdata: " ++ valuesJSON ++
      ",\n\t\tborderWidth: 1\n\t\x7d"
  let options :=
    if t = "pie" then
      "\x7b\n\t\t\tresponsive: true,\n\t\t\tmaintainAspectRatio: false,\n\t\t\tplugins: \x7b\n" ++
        "\t\t\t\tlegend: \x7b labels: \x7b color: " ++ uiColorJSON ++ " \x7d \x7d,\n" ++
        "\t\t\t\ttitle: \x7b display: " ++ titleDisplay ++ ", text: " ++ titleJSON ++
        ", color: " ++ uiColorJSON ++ " \x7d\n\t\t\t\x7d\n\t\t\x7d"
    else
      "\x7b\n\t\t\tresponsive: true,\n\t\t\tmaintainAspectRatio: false,\n\t\t\tplugins: \x7b\n" ++
        "\t\t\t\tlegend: \x7b labels: \x7b color: " ++ uiColorJSON ++ " \x7d \x7d,\n" ++
        "\t\t\t\ttitle:  \x7b display: " ++ titleDisplay ++ ", text: " ++ titleJSON ++
        ", color: " ++ uiColorJSON ++ " \x7d\n\t\t\t\x7d,\n" ++
        "\t\t\tscales: \x7b\n\t\t\t\tx: \x7b\n\t\t\t\t\tticks: \x7b color: " ++ uiColorJSON ++
        " \x7d,\n\t\t\t\t\tgrid:  \x7b color: \x22rgba(255,255,255,0.1)\x22 \x7d\n\t\t\t\t\x7d,\n" ++
        "\t\t\t\ty: \x7b\n\t\t\t\t\tticks: \x7b color: " ++ uiColorJSON ++
        " \x7d,\n\t\t\t\t\tgrid:  \x7b color: \x22rgba(255,255,255,0.1)\x22 \x7d\n\t\t\t\t\x7d\n" ++
        "\t\t\t\x7d\n\t\t\x7d"
  "\n\t<script defer>\n\t\t(function () \x7b\n\t\t\tconst ctx = document.getElementById(\x22" ++
    div_id ++ "\x22).getContext(\x222d\x22);\n\t\t\tconst labels = " ++ labelsJSON ++
    ";\n\t\t\tconst data = \x7b\n\t\t\t\tlabels,\n\t\t\t\tdatasets: [" ++ dataset ++
    "]\n\t\t\t\x7d;\n\t\t\tconst config = \x7b\n\t\t\t\ttype: " ++ goQuote t ++
    ",\n\t\t\t\tdata,\n\t\t\t\toptions: " ++ options ++
    "\n\t\t\t\x7d;\n\t\t\tnew Chart(ctx, config);\n\t\t\x7d)();\n\t</script>"

/- ## HTMLRenderer.Render (main.go lines 292-330). The goldmark plumbing
(node cast, line-segment extraction, the buffered writer) is abstracted: the
extracted source text is the `input` argument, the sha256-hex identifier is
the `hash` argument, and the writer is a pure string sink that always
succeeds. The returned pair is (bytes written, error returned). -/

def renderContainer (height div_id : String) : String :=
  "<div style=\x22position:relative;width:100%;height:" ++ height ++
    "\x22><canvas id=\x22" ++ div_id ++ "\x22></canvas></div>"

def RenderStep (hash : String → String) (entering : Bool) (input : String) :
    String × Option String :=
  if !entering then ("", none)
  else if input.data.length = 0 then ("", none)
  else
    let div_id := hash input
    match ParseChartData input with
    | .error e => ("", some e)
    | .ok chart_data =>
      (renderContainer chart_data.Height div_id ++ BuildChartJS div_id chart_data, none)

/- ## Transformer.Transform (main.go lines 41-79). The goldmark AST is
modelled as a closed tree: fenced code blocks carry their language tag and
line range, chart blocks carry a line range, and every other node kind is a
container with children. The Go code first collects all fenced blocks whose
language is exactly "vis" and then swaps each for a fresh ChartBlock carrying
the same lines via parent.ReplaceChild; since each replacement is local to
the matched node and cannot create or destroy matches, this equals the
positional rewrite below. -/

mutual

inductive MDNode where
  | fenced : String → List (Nat × Nat) → MDNode
  | chart : List (Nat × Nat) → MDNode
  | container : MDNodeL → MDNode

inductive MDNodeL where
  | nil : MDNodeL
  | cons : MDNode → MDNodeL → MDNodeL

end

def VIS_LANG : String := "vis"

mutual

def transformNode : MDNode → MDNode
  | .fenced lang lines => if lang = VIS_LANG then .chart lines else .fenced lang lines
  | .chart lines => .chart lines
  | .container cs => .container (transformNodeL cs)

def transformNodeL : MDNodeL → MDNodeL
  | .nil => .nil
  | .cons n rest => .cons (transformNode n) (transformNodeL rest)

end

mutual

/-- Whether the tree contains a fenced code block whose language tag is
byte-for-byte "vis" (the match condition of the collection walk). -/
def hasVisBlock : MDNode → Bool
  | .fenced lang _ => lang = VIS_LANG
  | .chart _ => false
  | .container cs => hasVisBlockL cs

def hasVisBlockL : MDNodeL → Bool
  | .nil => false
  | .cons n rest => hasVisBlock n || hasVisBlockL rest

end

def mdToList : MDNodeL → List MDNode
  | .nil => []
  | .cons n rest => n :: mdToList rest

def exceptOk {ε α : Type} : Except ε α → Bool
  | .ok _ => true
  | .error _ => false

/- ## Helper lemmas shared by several claims. -/

theorem wrapped_ne_layout (e : String) :
    ("failed to parse chart data: " ++ e) ≠ "layout not found" := by
  intro h
  have hl := congrArg String.length h
  rw [String.length_append] at hl
  rw [show ("failed to parse chart data: " : String).length = 28 from rfl,
    show ("layout not found" : String).length = 16 from rfl] at hl
  omega

theorem wrapped_ne_data (e : String) :
    ("failed to parse chart data: " ++ e) ≠ "data not found" := by
  intro h
  have hl := congrArg String.length h
  rw [String.length_append] at hl
  rw [show ("failed to parse chart data: " : String).length = 28 from rfl,
    show ("data not found" : String).length = 14 from rfl] at hl
  omega

theorem containsSubstrL_subset (pat s : List Char) (h : containsSubstrL pat s = true) :
    ∀ c ∈ pat, c ∈ s := by
  induction s with
  | nil =>
    intro c hc
    simp only [containsSubstrL] at h
    have := List.isPrefixOf_iff_prefix.mp h
    rcases this with ⟨t, ht⟩
    cases pat with
    | nil => cases hc
    | cons a b => simp at ht
  | cons x xs ih =>
    intro c hc
    simp only [containsSubstrL, Bool.or_eq_true] at h
    cases h with
    | inl h => exact (List.isPrefixOf_iff_prefix.mp h).subset hc
    | inr h => exact List.mem_cons_of_mem x (ih h c hc)

end GoldmarkChart

namespace GoldmarkChart

/- ## Claim C1. -/

/-- Claim C1 counterexample: the input with layout present and the literal
data field `data: []` is accepted by ParseChartData (no error) even though the
resulting points sequence is empty, so an empty points list is not rejected
with a parse failure. -/
theorem C1_counterexample :
    ParseChartData "layout: bar\ndata: []" =
      .ok { Typ := "bar", Height := "", Label := "", Title := "",
            Points := [], KeysNumeric := true, Color := "" } := by
  rfl

/-- Claim C1 (amended): if ParseChartData returns successfully then the kind
string is non-empty and the accumulated data-line buffer was non-empty, but
the resulting points sequence may be empty (for example on `data: []`). -/
theorem C1_ok_kind_nonempty (input : String) (cd : RenderChartData)
    (h : ParseChartData input = .ok cd) :
    cd.Typ ≠ "" ∧ (scanAll input).dataLines ≠ [] := by
  unfold ParseChartData at h
  by_cases h1 : (scanAll input).typ = ""
  · simp [h1] at h
  · by_cases h2 : (scanAll input).dataLines = []
    · simp [h1, h2] at h
    · refine ⟨?_, h2⟩
      simp only [h1, h2, if_neg, if_false] at h
      cases hm : unmarshalPoints (normalizeData (scanAll input).dataLines) with
      | error e => rw [hm] at h; simp at h
      | ok points =>
        rw [hm] at h
        simp at h
        rw [← h]
        exact h1

/-- Claim C1 witness: the amended theorem applied at a concrete input. -/
theorem C1_witness :
    ∃ cd, ParseChartData "layout: bar\ndata: [\x7bkey: 1, value: 2\x7d]" = .ok cd ∧
      cd.Typ ≠ "" := by
  refine ⟨_, rfl, ?_⟩
  exact (C1_ok_kind_nonempty "layout: bar\ndata: [\x7bkey: 1, value: 2\x7d]" _ rfl).1

/- ## Claim C5. -/

/-- Claim C5: an input whose data field is
`data: [\x7bkey: 1, value: 5\x7d,\x7bkey: 2, value: 3\x7d,]` (trailing comma
before the closing bracket) parses successfully into exactly 2 points, with
values 5 then 3 in that order. -/
theorem C5_trailing_comma :
    ParseChartData "layout: bar\ndata: [\x7bkey: 1, value: 5\x7d,\x7bkey: 2, value: 3\x7d,]" =
      .ok { Typ := "bar", Height := "", Label := "", Title := "",
            Points := [{ Key := .jnum { num := 1, den := 1 }, Value := { num := 5, den := 1 } },
                       { Key := .jnum { num := 2, den := 1 }, Value := { num := 3, den := 1 } }],
            KeysNumeric := true, Color := "" } := by
  decide

/- ## Claim C2. -/

/-- Claim C2 counterexample: in the data section the line `label: 9` is NOT
accumulated into the data buffer; it is consumed as the scalar label field
(the result has Label = "9" and the buffer holds only the surrounding lines),
so lines after `data:` ARE still checked against the scalar-field markers. -/
theorem C2_counterexample :
    ParseChartData "layout: bar\ndata: [\n\x7bkey: 1, value: 2\x7d,\nlabel: 9\n]" =
      .ok { Typ := "bar", Height := "", Label := "9", Title := "",
            Points := [{ Key := .jnum { num := 1, den := 1 }, Value := { num := 2, den := 1 } }],
            KeysNumeric := true, Color := "" } ∧
    (scanAll "layout: bar\ndata: [\n\x7bkey: 1, value: 2\x7d,\nlabel: 9\n]").dataLines =
      ["[", "\x7bkey: 1, value: 2\x7d,", "]"] := by
  exact ⟨by decide, by decide⟩

/-- Claim C2 (amended): after `data:` has been seen, a line is accumulated
verbatim (after trimming) into the data buffer only when its trimmed form
does not begin with one of the six field markers; a data-section line that
does begin with such a marker (for example `label:`) is instead recorded as
that scalar field and is not accumulated. -/
theorem C2_data_accumulation :
    (∀ (st : ScanState) (raw : String), st.inData = true →
      goStartsWith (goTrimSpace raw) "layout:" = false →
      goStartsWith (goTrimSpace raw) "height:" = false →
      goStartsWith (goTrimSpace raw) "label:" = false →
      goStartsWith (goTrimSpace raw) "title:" = false →
      goStartsWith (goTrimSpace raw) "color:" = false →
      goStartsWith (goTrimSpace raw) "data:" = false →
      scanLine st raw = { st with dataLines := st.dataLines ++ [goTrimSpace raw] }) ∧
    (∀ (st : ScanState) (raw : String),
      goStartsWith (goTrimSpace raw) "layout:" = false →
      goStartsWith (goTrimSpace raw) "height:" = false →
      goStartsWith (goTrimSpace raw) "label:" = true →
      scanLine st raw =
        { st with label := goTrimSpace (goDropPre (goTrimSpace raw) "label:") }) := by
  constructor
  · intro st raw hin h1 h2 h3 h4 h5 h6
    unfold scanLine
    simp [h1, h2, h3, h4, h5, h6, hin]
  · intro st raw h1 h2 h3
    unfold scanLine
    simp [h1, h2, h3]

/-- Claim C2 witness: the amended theorem applied to concrete scan states. -/
theorem C2_witness :
    scanLine { initScan with inData := true } "x" =
      { initScan with inData := true, dataLines := ["x"] } ∧
    scanLine { initScan with inData := true } "label: 9" =
      { initScan with inData := true, label := "9" } := by
  constructor
  · exact (C2_data_accumulation.1 { initScan with inData := true } "x" rfl
      (by decide) (by decide) (by decide) (by decide) (by decide) (by decide)).trans (by decide)
  · exact (C2_data_accumulation.2 { initScan with inData := true } "label: 9"
      (by decide) (by decide) (by decide)).trans (by decide)

/- ## Claim C3. -/

def c10data : String := "[\x7bkey: " ++ dq ++ "it" ++ sq ++ "s" ++ dq ++ ", value: 1\x7d]"

def c10in : String := "layout: bar\ndata: " ++ c10data

def c10kdata : String := "[\x7bkey: " ++ dq ++ "key: a" ++ dq ++ ", value: 1\x7d]"

def c10kin : String := "layout: bar\ndata: " ++ c10kdata

/-- Claim C10: the textual JSON-normalization rewrites are applied inside
quoted string content as well - the single quote of the key "it(')s" is
rewritten to a double quote and the substring "key:" inside a quoted key is
rewritten to a quoted member name - so these well-formed inputs make
ParseChartData fail. -/
theorem C10_rewrites_in_quotes :
    normalizeData [c10data] =
      "[\x7b" ++ dq ++ "key" ++ dq ++ ": " ++ dq ++ "it" ++ dq ++ "s" ++ dq ++ ", " ++
        dq ++ "value" ++ dq ++ ": 1\x7d]" ∧
    exceptOk (ParseChartData c10in) = false ∧
    exceptOk (ParseChartData c10kin) = false := by
  exact ⟨by decide, by decide, by decide⟩

/- ## Claim C4. -/

theorem lowerHexDigit_ne_lt : ∀ m, m < 16 → lowerHexDigit m ≠ '<' := by decide

theorem hexByte_no_lt (n : Nat) : '<' ∉ hexByte n := by
  intro hm
  rcases List.mem_cons.mp hm with h | h
  · exact lowerHexDigit_ne_lt _ (Nat.mod_lt _ (by norm_num)) h.symm
  · rcases List.mem_cons.mp h with h | h
    · exact lowerHexDigit_ne_lt _ (Nat.mod_lt _ (by norm_num)) h.symm
    · cases h

set_option maxHeartbeats 1000000 in
theorem jsonEscChar_no_lt (c : Char) : '<' ∉ jsonEscChar c := by
  unfold jsonEscChar
  split
  · decide
  split
  · decide
  split
  · decide
  split
  · decide
  split
  · decide
  split
  · decide
  split
  · decide
  split
  · decide
  split
  · intro hm
    rcases List.mem_cons.mp hm with h | h
    · cases h
    rcases List.mem_cons.mp h with h | h
    · cases h
    rcases List.mem_cons.mp h with h | h
    · cases h
    rcases List.mem_cons.mp h with h | h
    · cases h
    exact hexByte_no_lt _ h
  split
  · decide
  split
  · decide
  · rename_i hq hb hn hr ht hlt hgt ha hc h28 h29
    intro hm
    rcases List.mem_cons.mp hm with h | h
    · exact hlt h.symm
    · cases h

theorem jsonMarshalString_no_lt (s : String) : '<' ∉ (jsonMarshalString s).data := by
  intro hm
  have hd : (jsonMarshalString s).data = '"' :: s.data.flatMap jsonEscChar ++ ['"'] := rfl
  rw [hd] at hm
  rcases List.mem_cons.mp hm with h | h
  · cases h
  · rcases List.mem_append.mp h with h | h
    · rcases List.mem_flatMap.mp h with ⟨c, _, hc⟩
      exact jsonEscChar_no_lt c hc
    · rcases List.mem_cons.mp h with h | h
      · cases h
      · cases h

set_option maxRecDepth 100000 in
/-- Claim C4 counterexample: a dataset label equal to the script end tag,
after the percent-q quoting BuildChartJS applies to labels, still contains the
end tag verbatim, so the emitted markup contains a second occurrence of the
end tag before the real one and the script element is terminated early (a
benign label yields exactly one occurrence, the final end tag). -/
theorem C4_counterexample :
    countSubstr (BuildChartJS "id"
      { Typ := "bar", Height := "", Label := "</script>", Title := "t",
        Points := [], KeysNumeric := true, Color := "" }) "</script>" = 2 ∧
    countSubstr (BuildChartJS "id"
      { Typ := "bar", Height := "", Label := "safe", Title := "t",
        Points := [], KeysNumeric := true, Color := "" }) "</script>" = 1 := by
  exact ⟨by decide, by decide⟩

/-- Claim C4 (amended): the strings BuildChartJS embeds via json.Marshal (the
title text, the color, and string labels in the labels array) are escaped so
that the marshalled literal never contains a raw angle bracket - in particular
it can never contain the script end tag, so those strings cannot break out of
the generated script element; the dataset label, embedded via Go percent-q
quoting, escapes quotes and backslashes (it cannot terminate the string
literal) but keeps angle brackets, so a label containing the script end tag
does terminate the script element (see the counterexample). -/
theorem C4_marshal_escapes (s : String) :
    '<' ∉ (jsonMarshalString s).data ∧
      containsSubstr (jsonMarshalString s) "</script>" = false := by
  refine ⟨jsonMarshalString_no_lt s, ?_⟩
  cases hc : containsSubstr (jsonMarshalString s) "</script>" with
  | false => rfl
  | true =>
    exact absurd (containsSubstrL_subset _ _ hc '<' (by decide))
      (jsonMarshalString_no_lt s)

/- ## Claim C6. -/

def c6in : String := "layout: scatter\ndata: [\x7bkey: 1, value: 2\x7d]"

def c6cd : RenderChartData :=
  { Typ := "scatter", Height := "", Label := "", Title := "",
    Points := [{ Key := .jnum { num := 1, den := 1 }, Value := { num := 2, den := 1 } }],
    KeysNumeric := true, Color := "" }

set_option maxRecDepth 100000 in
/-- Claim C6: BuildChartJS normalizes the kind by lower-casing and trimming,
keeps it when it is bar, line or pie, and coerces anything else to bar; the
input with layout scatter parses successfully (the Parser only requires a
non-empty kind) and its generated script carries type "bar". -/
theorem C6_kind_coercion :
    (∀ s : String,
      ((goToLower (goTrimSpace s) = "bar" ∨ goToLower (goTrimSpace s) = "line" ∨
          goToLower (goTrimSpace s) = "pie") →
        normalizeChartType s = goToLower (goTrimSpace s)) ∧
      (¬(goToLower (goTrimSpace s) = "bar" ∨ goToLower (goTrimSpace s) = "line" ∨
          goToLower (goTrimSpace s) = "pie") →
        normalizeChartType s = "bar")) ∧
    ParseChartData c6in = .ok c6cd ∧
    containsSubstr (BuildChartJS "id0" c6cd) ("type: " ++ dq ++ "bar" ++ dq) = true := by
  refine ⟨fun s => ⟨fun h => ?_, fun h => ?_⟩, by decide, by decide⟩
  · unfold normalizeChartType
    exact if_pos h
  · unfold normalizeChartType
    exact if_neg h

/-- Claim C6 witness: the coercion theorem applied at concrete kinds. -/
theorem C6_witness :
    normalizeChartType " PIE " = "pie" ∧ normalizeChartType "scatter" = "bar" := by
  constructor
  · exact ((C6_kind_coercion.1 " PIE ").1 (by decide)).trans (by decide)
  · exact (C6_kind_coercion.1 "scatter").2 (by decide)

/- ## Claim C7. -/

/-- Claim C7 counterexample: on the empty input the accumulated data buffer is
empty, yet ParseChartData does not fail with "data not found" - the missing
layout is reported first - so "fails with data-not-found exactly when the
buffer is empty" does not hold as stated. -/
theorem C7_counterexample :
    ParseChartData "" = .error "layout not found" ∧
    (scanAll "").dataLines = [] ∧
    ParseChartData "" ≠ .error "data not found" := by
  exact ⟨by decide, by decide, by decide⟩

/-- Claim C7 (amended): ParseChartData fails with "layout not found" exactly
when no layout value was recorded during the line scan, and fails with
"data not found" exactly when a layout was recorded and the accumulated data
buffer is empty (the layout check runs first); in either case the error
carries no chart description. -/
theorem C7_error_messages (input : String) :
    (ParseChartData input = .error "layout not found" ↔ (scanAll input).typ = "") ∧
    (ParseChartData input = .error "data not found" ↔
      ((scanAll input).typ ≠ "" ∧ (scanAll input).dataLines = [])) := by
  unfold ParseChartData
  by_cases h1 : (scanAll input).typ = ""
  · simp [h1]
  · by_cases h2 : (scanAll input).dataLines = []
    · simp [h1, h2]
    · cases hm : unmarshalPoints (normalizeData (scanAll input).dataLines) with
      | error e => simp [h1, h2, hm, wrapped_ne_layout e, wrapped_ne_data e]
      | ok points => simp [h1, h2, hm]

/-- Claim C7 witness: the amended theorem applied at concrete inputs. -/
theorem C7_witness :
    ParseChartData "nolayout" = .error "layout not found" ∧
    ParseChartData "layout: x" = .error "data not found" := by
  constructor
  · exact (C7_error_messages "nolayout").1.mpr (by decide)
  · exact (C7_error_messages "layout: x").2.mpr (by decide)

/- ## Claim C8. -/

theorem string_ne_empty_length (input : String) (hne : input ≠ "") :
    input.data.length = 0 → False := by
  intro h0
  apply hne
  cases input with
  | mk data =>
    have hd : data = [] := List.eq_nil_of_length_eq_zero h0
    rw [hd]

/-- Claim C8: for a chart node during rendering - on the exit half of the
callback nothing is written and no error is reported; when the extracted
source text is empty nothing is written and no error is reported; when the
text is non-empty and ParseChartData fails, nothing is written and the
failure is returned to the caller; when parsing succeeds, the container
element followed immediately by the generated script text is written, with
nothing in between, and no error is reported. -/
theorem C8_render_cases (hash : String → String) (input : String) :
    RenderStep hash false input = ("", none) ∧
    RenderStep hash true "" = ("", none) ∧
    (∀ e, input ≠ "" → ParseChartData input = .error e →
      RenderStep hash true input = ("", some e)) ∧
    (∀ cd, input ≠ "" → ParseChartData input = .ok cd →
      RenderStep hash true input =
        (renderContainer cd.Height (hash input) ++ BuildChartJS (hash input) cd, none)) := by
  refine ⟨rfl, rfl, ?_, ?_⟩
  · intro e hne hp
    unfold RenderStep
    rw [if_neg (by simp), if_neg (string_ne_empty_length input hne), hp]
  · intro cd hne hp
    unfold RenderStep
    rw [if_neg (by simp), if_neg (string_ne_empty_length input hne), hp]

def c8hash : String → String := fun _ => "H"

def c8in : String := "layout: line\ndata: [\x7bkey: 1, value: 2\x7d]"

def c8cd : RenderChartData :=
  { Typ := "line", Height := "", Label := "", Title := "",
    Points := [{ Key := .jnum { num := 1, den := 1 }, Value := { num := 2, den := 1 } }],
    KeysNumeric := true, Color := "" }

/-- Claim C8 witness: the render-step theorem applied at concrete inputs. -/
theorem C8_witness :
    RenderStep c8hash true c8in =
      (renderContainer c8cd.Height (c8hash c8in) ++ BuildChartJS (c8hash c8in) c8cd, none) ∧
    RenderStep c8hash true "bad" = ("", some "layout not found") := by
  constructor
  · exact (C8_render_cases c8hash c8in).2.2.2 c8cd (by decide) (by decide)
  · exact (C8_render_cases c8hash "bad").2.2.1 "layout not found" (by decide) (by decide)

/- ## Claim C9. -/

mutual

theorem hasVis_false_fix : ∀ t, hasVisBlock t = false → transformNode t = t
  | .fenced lang lines, h => by
    unfold hasVisBlock at h
    simp at h
    unfold transformNode
    simp [h]
  | .chart _, _ => rfl
  | .container cs, h => by
    unfold hasVisBlock at h
    unfold transformNode
    rw [hasVisL_false_fix cs h]

theorem hasVisL_false_fix : ∀ ts, hasVisBlockL ts = false → transformNodeL ts = ts
  | .nil, _ => rfl
  | .cons n rest, h => by
    unfold hasVisBlockL at h
    rw [Bool.or_eq_false_iff] at h
    unfold transformNodeL
    rw [hasVis_false_fix n h.1, hasVisL_false_fix rest h.2]

end

theorem mdToList_transformL :
    ∀ cs, mdToList (transformNodeL cs) = (mdToList cs).map transformNode
  | .nil => rfl
  | .cons n rest => by
    unfold transformNodeL mdToList
    rw [mdToList_transformL rest]
    rfl

/-- Claim C9: the transform replaces exactly the fenced code blocks whose
language tag is byte-for-byte "vis" with a chart block carrying the same line
range; a fenced block with any other tag is left untouched; a tree containing
no matching block is returned unchanged; and the children of a container are
rewritten elementwise, each child staying at its position. -/
theorem C9_transform :
    (∀ lines, transformNode (.fenced "vis" lines) = .chart lines) ∧
    (∀ lang lines, lang ≠ "vis" → transformNode (.fenced lang lines) = .fenced lang lines) ∧
    (∀ t, hasVisBlock t = false → transformNode t = t) ∧
    (∀ cs, transformNode (.container cs) = .container (transformNodeL cs) ∧
      mdToList (transformNodeL cs) = (mdToList cs).map transformNode) := by
  refine ⟨?_, ?_, hasVis_false_fix, fun cs => ⟨rfl, mdToList_transformL cs⟩⟩
  · intro lines
    unfold transformNode
    simp [VIS_LANG]
  · intro lang lines h
    unfold transformNode
    simp [VIS_LANG, h]

/-- Claim C9 witness: the transform theorem applied at concrete trees - the
match is case-sensitive ("Vis" is not replaced) and a match-free tree is
returned unchanged. -/
theorem C9_witness :
    transformNode (.fenced "Vis" [(1, 2)]) = .fenced "Vis" [(1, 2)] ∧
    transformNode (.container (.cons (.chart [(0, 1)]) (.cons (.fenced "go" []) .nil))) =
      .container (.cons (.chart [(0, 1)]) (.cons (.fenced "go" []) .nil)) := by
  constructor
  · exact C9_transform.2.1 "Vis" [(1, 2)] (by decide)
  · exact C9_transform.2.2.1 _ rfl

end GoldmarkChart
